import Mathlib

/-!
Shallow embedding of the claude-code-rlm-plugin repository, covering
`src/agent_manager.py` (the parallel agent manager: chunk dispatch, model
selection, prompt construction, result aggregation) and
`benchmarks/token_efficiency_analyzer.py` (the token estimator).

Python values flowing through the manager are modelled by the inductive
`PyVal`; Python exceptions are modelled by `Except String`; wall-clock
durations are modelled by an explicit timing parameter (a function from
task id to the measured elapsed milliseconds); the nondeterministic
completion order of the thread pool is modelled by an explicit `order`
parameter, a permutation of the task indices.
-/

namespace RLM

/-- Model of a dynamically typed Python value as it flows through the
agent manager: strings, ints, dicts (insertion-ordered association
lists), lists, and None. -/
inductive PyVal where
  | vstr : String → PyVal
  | vint : Int → PyVal
  | vdict : List (String × PyVal) → PyVal
  | vlist : List PyVal → PyVal
  | vnone : PyVal

/-- A Python dict with string keys, as an insertion-ordered association list. -/
abbrev PyDict := List (String × PyVal)

mutual

/-- Model of Python `repr` on a `PyVal` (used by `str` on containers). -/
def pyRepr : PyVal → String
  | .vstr s => "\x27" ++ s ++ "\x27"
  | .vint n => toString n
  | .vnone => "None"
  | .vdict kvs => "\x7b" ++ pyJoinComma (pyReprKVs kvs) ++ "\x7d"
  | .vlist vs => "[" ++ pyJoinComma (pyReprList vs) ++ "]"

/-- Renders each dict entry as Python `repr` does. -/
def pyReprKVs : List (String × PyVal) → List String
  | [] => []
  | (k, v) :: rest => ("\x27" ++ k ++ "\x27: " ++ pyRepr v) :: pyReprKVs rest

/-- Renders each list element as Python `repr` does. -/
def pyReprList : List PyVal → List String
  | [] => []
  | v :: vs => pyRepr v :: pyReprList vs

/-- Joins rendered fragments with Python's ", " separator. -/
def pyJoinComma : List String → String
  | [] => ""
  | [x] => x
  | x :: y :: xs => x ++ ", " ++ pyJoinComma (y :: xs)

end

/-- Model of Python `str()` on a `PyVal`: a string renders as itself,
anything else as its `repr`. -/
def pyStr : PyVal → String
  | .vstr s => s
  | v => pyRepr v

/-- Python `isinstance(v, str)`. -/
def PyVal.isStr : PyVal → Bool
  | .vstr _ => true
  | _ => false

/-- Python `isinstance(v, dict)`. -/
def PyVal.isDict : PyVal → Bool
  | .vdict _ => true
  | _ => false

/-- The underlying entries of a dict value (and `[]` on non-dicts,
which the code guards against with `isinstance`). -/
def PyVal.asDict : PyVal → PyDict
  | .vdict kvs => kvs
  | _ => []

/-- Python `d.get(key, default)` on a dict with string keys. -/
def dict_get : PyDict → String → PyVal → PyVal
  | [], _, dflt => dflt
  | (k, v) :: rest, key, dflt => if k = key then v else dict_get rest key dflt

/-- Python `d[k] = v`: overwrite in place if the key exists, else append
(insertion order is preserved, as in Python dicts). -/
def dict_set (d : PyDict) (key : String) (v : PyVal) : PyDict :=
  if (d.map Prod.fst).contains key then
    d.map fun kv => if kv.1 = key then (key, v) else kv
  else
    d ++ [(key, v)]

/-- Python `acc.update(new)`: last-writer-wins merge of dict entries. -/
def dict_update (acc : PyDict) (new : PyDict) : PyDict :=
  new.foldl (fun a kv => dict_set a kv.1 kv.2) acc

/-- Python `"sep".join(xs)`. -/
def pyJoin (sep : String) : List String → String
  | [] => ""
  | [x] => x
  | x :: y :: xs => x ++ sep ++ pyJoin sep (y :: xs)

/-- Python string slicing `s[:n]` (by characters, as in Python). -/
def pySlice (s : String) (n : Nat) : String := ⟨s.data.take n⟩

/-- Python truthiness of an `Optional[str]`: `None` and `""` are falsy. -/
def pyTruthyOpt : Option String → Bool
  | Option.none => false
  | some s => !(decide (s = ""))

/-- `ChunkTask` dataclass from `src/agent_manager.py` (lines 12-23). -/
structure ChunkTask where
  id : Int
  content : PyVal
  task_type : String := "extraction"
  query : Option String := Option.none
  metadata : PyDict := []

/-- `Result` dataclass from `src/agent_manager.py` (lines 26-33). -/
structure Result where
  chunk_id : Int
  content : PyVal
  processing_time_ms : ℚ
  model_used : String := "haiku"
  error : Option String := Option.none

/-- The LM worker callable `llm_query_fn(prompt, model)`: it either
returns a value or raises an exception carrying a message. -/
def LlmFn := String → String → Except String PyVal

/-- `ParallelAgentManager._select_model` (lines 148-157). -/
def select_model (task : ChunkTask) : String :=
  if task.task_type = "extraction" then "haiku"
  else if task.task_type = "analysis" then "sonnet"
  else if task.task_type = "synthesis" then "sonnet"
  else "haiku"

/-- `ParallelAgentManager._build_prompt` (lines 159-176).  The Python
code branches on `if task.query:` (truthiness), and interpolates the
query, the task id, and the chunk payload truncated to its first
10000 characters. -/
def build_prompt (task : ChunkTask) : String :=
  if pyTruthyOpt task.query then
    "Process this chunk of data to answer the following query:\n\nQuery: "
      ++ task.query.getD ""
      ++ "\n\nChunk " ++ toString task.id ++ ":\n"
      ++ pySlice (pyStr task.content) 10000
      ++ "\n\nProvide a concise response focusing only on information relevant to the query."
  else
    "Extract key information from this chunk:\n\nChunk "
      ++ toString task.id ++ ":\n"
      ++ pySlice (pyStr task.content) 10000
      ++ "\n\nProvide a structured summary of the main points."

/-- `ParallelAgentManager._process_single_chunk` (lines 115-141).
`elapsed` is the measured wall-clock duration in milliseconds (the
difference of the two `time.time()` reads), an input of the model.
Every exception raised by the LM worker is caught and folded into a
`Result` with `error` set; the error branch leaves `model_used` at its
dataclass default `"haiku"`. -/
def process_single_chunk (llm : Option LlmFn) (elapsed : ℚ) (task : ChunkTask) : Result :=
  match llm with
  | Option.none =>
      { chunk_id := task.id
        content := .vstr ("[Processed chunk " ++ toString task.id ++ ": "
          ++ toString (pyStr task.content).length ++ " chars]")
        processing_time_ms := elapsed
        model_used := select_model task }
  | some f =>
      match f (build_prompt task) (select_model task) with
      | .ok v =>
          { chunk_id := task.id
            content := v
            processing_time_ms := elapsed
            model_used := select_model task }
      | .error e =>
          { chunk_id := task.id
            content := .vnone
            processing_time_ms := elapsed
            error := some e }

/-- The `ChunkTask` list built by `process_chunks_sync` and
`process_chunks_async` (lines 48-57 and 83-92): task `i` carries
`chunk.get('content', chunk)`, task type `"query"`, the user query,
and the chunk itself as metadata. -/
def make_chunk_tasks (chunks : List PyDict) (query : String) : List ChunkTask :=
  chunks.enum.map fun p =>
    { id := (p.1 : Int)
      content := dict_get p.2 "content" (.vdict p.2)
      task_type := "query"
      query := some query
      metadata := p.2 }

/-- One completed future per submitted task, in submission order. -/
def run_tasks (llm : Option LlmFn) (timings : Int → ℚ) (tasks : List ChunkTask) :
    List Result :=
  tasks.map fun t => process_single_chunk llm (timings t.id) t

/-- The buffer built by the `as_completed` loop (lines 66-76): results
arrive in the nondeterministic completion order `order` (a permutation
of the task indices).  Each yielded future is already settled, so
`future.result(timeout=60)` returns its `Result` without raising
(`_process_single_chunk` catches every exception), and the
`chunk_id = -1` fallback branch at lines 70-76 is unreachable. -/
def collected_results (llm : Option LlmFn) (timings : Int → ℚ)
    (tasks : List ChunkTask) (order : List Nat) : List Result :=
  order.filterMap fun i =>
    (tasks.get? i).map fun t => process_single_chunk llm (timings t.id) t

/-- `ParallelAgentManager.process_chunks_sync` (lines 46-79): build the
tasks, collect one result per future in completion order, then sort by
`chunk_id` (Python's stable `list.sort`, modelled by the stable
`insertionSort`). -/
def process_chunks_sync (llm : Option LlmFn) (timings : Int → ℚ) (order : List Nat)
    (chunks : List PyDict) (query : String) : List Result :=
  List.insertionSort (fun a b => a.chunk_id ≤ b.chunk_id)
    (collected_results llm timings (make_chunk_tasks chunks query) order)

/-- `ParallelAgentManager._batch_tasks` (lines 178-183): successive
slices `tasks[i:i+n]`.  Python's `range` raises on a zero step, so the
manager only ever calls this with `n ≥ 1`, where `ts.drop (n-1)`
coincides with `(t :: ts).drop n`. -/
def batch_tasks : List ChunkTask → Nat → List (List ChunkTask)
  | [], _ => []
  | t :: ts, n => (t :: ts).take n :: batch_tasks (ts.drop (n - 1)) n
termination_by l _ => l.length
decreasing_by
  simp only [List.length_cons, List.length_drop]
  omega

/-- `ParallelAgentManager.process_chunks_async` (lines 81-113): tasks
are processed batch by batch; within a batch `asyncio.gather` returns
results in submission order, and `_process_single_chunk` never raises,
so `return_exceptions=True` never sees an exception and the
`chunk_id = -1` branch at lines 103-109 is unreachable. -/
def process_chunks_async (llm : Option LlmFn) (timings : Int → ℚ)
    (chunks : List PyDict) (query : String) (n : Nat) : List Result :=
  ((batch_tasks (make_chunk_tasks chunks query) n).map fun batch =>
    batch.map fun t => process_single_chunk llm (timings t.id) t).flatten

/-- The aggregated reply dict returned by `aggregate_results`
(lines 205-211). -/
structure AggregatedReply where
  aggregated : PyVal
  chunks_processed : Nat
  chunks_failed : Nat
  total_processing_time_ms : ℚ
  errors : List (Int × Option String)

/-- `ParallelAgentManager.aggregate_results` (lines 185-211). -/
def aggregate_results (results : List Result) : AggregatedReply :=
  let successful := results.filter fun r => r.error.isNone
  let failed := results.filter fun r => r.error.isSome
  let total := (results.map Result.processing_time_ms).sum
  let aggregated :=
    if successful.all fun r => r.content.isStr then
      PyVal.vstr (pyJoin "\n\n"
        (successful.map fun r => "[Chunk " ++ toString r.chunk_id ++ "]:\n" ++ pyStr r.content))
    else if successful.all fun r => r.content.isDict then
      PyVal.vdict (successful.foldl
        (fun acc r => if r.content.isDict then dict_update acc r.content.asDict else acc) [])
    else
      PyVal.vlist (successful.map Result.content)
  { aggregated := aggregated
    chunks_processed := successful.length
    chunks_failed := failed.length
    total_processing_time_ms := total
    errors := failed.map fun r => (r.chunk_id, r.error) }

/-! Token estimator from `benchmarks/token_efficiency_analyzer.py`. -/

/-- Python `content.split()` (no separator argument): split on runs of
whitespace, discarding empty pieces.  Defined structurally on the
character list, accumulating the current word in reverse. -/
def pySplitWsAux : List Char → List Char → List (List Char)
  | [], acc => if acc = [] then [] else [acc.reverse]
  | c :: cs, acc =>
      if c.isWhitespace then
        if acc = [] then pySplitWsAux cs [] else acc.reverse :: pySplitWsAux cs []
      else pySplitWsAux cs (c :: acc)

/-- Python `content.split()` on a string. -/
def pySplitWs (s : String) : List (List Char) := pySplitWsAux s.data []

/-- Checks whether `needle` occurs at the start of `hay`. -/
def is_pre_chars : List Char → List Char → Bool
  | [], _ => true
  | _ :: _, [] => false
  | c :: cs, d :: ds => c == d && is_pre_chars cs ds

/-- Python `needle in hay` on strings: substring occurrence. -/
def sub_chars (needle : List Char) : List Char → Bool
  | [] => is_pre_chars needle []
  | d :: ds => is_pre_chars needle (d :: ds) || sub_chars needle ds

/-- The fixed `code_indicators` list of
`TokenEfficiencyAnalyzer._looks_like_code` (lines 150-158). -/
def code_indicators : List String :=
  ["def ", "function ", "class ", "import ", "from ",
   "\x7b", "\x7d", "()", "=>", "==", "!=", "&&", "||"]

/-- `TokenEfficiencyAnalyzer._looks_like_code` (lines 150-158): at
least three of the fixed indicators occur in the content. -/
def looks_like_code (content : String) : Bool :=
  3 ≤ (code_indicators.countP fun ind => sub_chars ind.data content.data)

/-- `TokenEfficiencyAnalyzer._estimate_tokens_content` (lines 130-148):
`int(len(words) * 1.3 * 1.1 * code_factor)`, the float arithmetic
idealised as exact rationals, with `int()` truncation (= floor on this
non-negative value). -/
def estimate_tokens_content (content : String) : Int :=
  let words := (pySplitWs content).length
  let code_factor : ℚ := if looks_like_code content then 14 / 10 else 1
  Rat.floor ((words : ℚ) * (13 / 10) * (11 / 10) * code_factor)

/-- Model of the filesystem view `_estimate_tokens_file` depends on:
either the file's decoded text (read with `errors='ignore'`, so decoding
never raises) or `none` when `open`/`read` raises, plus the byte size
reported by `stat`. -/
structure PyFile where
  readContent : Option String
  byteSize : Nat

/-- `TokenEfficiencyAnalyzer._estimate_tokens_file` (lines 120-128):
estimate from the decoded content, falling back to `st_size // 4` when
reading raises. -/
def estimate_tokens_file (f : PyFile) : Int :=
  match f.readContent with
  | some c => estimate_tokens_content c
  | Option.none => (f.byteSize / 4 : Nat)

/-- Forgets the wall-clock field of a `Result`; the spec's notion of
equality "excluding timing fields". -/
def erase_time (r : Result) : Result := { r with processing_time_ms := 0 }

/-- The timing-independent components of an aggregated reply
(`aggregated`, `chunks_processed`, `chunks_failed`, `errors`), computed
from the timing-erased Result list; used to state that aggregation
depends only on the timing-erased Results. -/
def agg_view (d : List Result) : PyVal × Nat × Nat × List (Int × Option String) :=
  let s := d.filter fun r => r.error.isNone
  let fl := d.filter fun r => r.error.isSome
  (if s.all (fun r => r.content.isStr) then
      PyVal.vstr (pyJoin "\n\n"
        (s.map fun r => "[Chunk " ++ toString r.chunk_id ++ "]:\n" ++ pyStr r.content))
    else if s.all (fun r => r.content.isDict) then
      PyVal.vdict (s.foldl
        (fun acc r => if r.content.isDict then dict_update acc r.content.asDict else acc) [])
    else
      PyVal.vlist (s.map Result.content),
   s.length, fl.length, fl.map fun r => (r.chunk_id, r.error))

/-! Helper lemmas about the embedding. -/

theorem process_single_chunk_chunk_id (llm : Option LlmFn) (t : ℚ) (task : ChunkTask) :
    (process_single_chunk llm t task).chunk_id = task.id := by
  cases llm with
  | none => rfl
  | some f =>
    show (match f (build_prompt task) (select_model task) with
      | .ok v => _ | .error e => _ : Result).chunk_id = task.id
    cases f (build_prompt task) (select_model task) <;> rfl

theorem make_chunk_tasks_length (chunks : List PyDict) (query : String) :
    (make_chunk_tasks chunks query).length = chunks.length := by
  simp [make_chunk_tasks]

theorem make_chunk_tasks_ids (chunks : List PyDict) (query : String) :
    (make_chunk_tasks chunks query).map ChunkTask.id
      = (List.range chunks.length).map Int.ofNat := by
  unfold make_chunk_tasks
  rw [List.map_map]
  have : (ChunkTask.id ∘ fun p : Nat × PyDict =>
      ({ id := (p.1 : Int), content := dict_get p.2 "content" (.vdict p.2),
         task_type := "query", query := some query, metadata := p.2 } : ChunkTask))
      = Int.ofNat ∘ Prod.fst := rfl
  rw [this, ← List.map_map, List.enum_map_fst]

theorem make_chunk_tasks_ids_pairwise (chunks : List PyDict) (query : String) :
    (make_chunk_tasks chunks query).Pairwise fun a b => a.id < b.id := by
  have h := List.pairwise_lt_range chunks.length
  have h2 : ((List.range chunks.length).map Int.ofNat).Pairwise fun a b => a < b := by
    rw [List.pairwise_map]
    exact h.imp fun hab => Int.ofNat_lt.mpr hab
  rw [← make_chunk_tasks_ids chunks query, List.pairwise_map] at h2
  exact h2

theorem run_tasks_ids (llm : Option LlmFn) (timings : Int → ℚ) (tasks : List ChunkTask) :
    (run_tasks llm timings tasks).map Result.chunk_id = tasks.map ChunkTask.id := by
  unfold run_tasks
  rw [List.map_map]
  exact List.map_congr_left fun t _ => process_single_chunk_chunk_id llm (timings t.id) t

theorem run_tasks_pairwise (llm : Option LlmFn) (timings : Int → ℚ)
    (chunks : List PyDict) (query : String) :
    (run_tasks llm timings (make_chunk_tasks chunks query)).Pairwise
      fun a b => a.chunk_id < b.chunk_id := by
  have h := make_chunk_tasks_ids_pairwise chunks query
  have h2 : ((run_tasks llm timings (make_chunk_tasks chunks query)).map
      Result.chunk_id).Pairwise fun a b => a < b := by
    rw [run_tasks_ids, List.pairwise_map]
    exact h
  rw [List.pairwise_map] at h2
  exact h2

theorem filterMap_get_range {α β : Type _} (l : List α) (g : α → β) :
    (List.range l.length).filterMap (fun i => (l.get? i).map g) = l.map g := by
  induction l with
  | nil => rfl
  | cons a as ih =>
    rw [List.length_cons, List.range_succ_eq_map, List.filterMap_cons]
    show g a :: List.filterMap _ (List.map Nat.succ _) = _
    rw [List.filterMap_map]
    have : ((fun i => ((a :: as).get? i).map g) ∘ Nat.succ)
        = fun i => (as.get? i).map g := rfl
    rw [this, ih, List.map_cons]

theorem collected_results_perm (llm : Option LlmFn) (timings : Int → ℚ)
    (tasks : List ChunkTask) (order : List Nat)
    (hord : order.Perm (List.range tasks.length)) :
    (collected_results llm timings tasks order).Perm (run_tasks llm timings tasks) := by
  unfold collected_results
  have h := hord.filterMap fun i =>
    (tasks.get? i).map fun t => process_single_chunk llm (timings t.id) t
  rw [filterMap_get_range] at h
  exact h

theorem pairwise_lt_of_le_of_nodup {l : List Result}
    (h₁ : l.Pairwise fun a b => a.chunk_id ≤ b.chunk_id)
    (h₂ : (l.map Result.chunk_id).Nodup) :
    l.Pairwise fun a b => a.chunk_id < b.chunk_id := by
  rw [List.Nodup, List.pairwise_map] at h₂
  exact (h₁.and h₂).imp fun hab => lt_of_le_of_ne hab.1 hab.2

theorem process_chunks_sync_eq_run_tasks (llm : Option LlmFn) (timings : Int → ℚ)
    (order : List Nat) (chunks : List PyDict) (query : String)
    (hord : order.Perm (List.range chunks.length)) :
    process_chunks_sync llm timings order chunks query
      = run_tasks llm timings (make_chunk_tasks chunks query) := by
  unfold process_chunks_sync
  haveI : IsTotal Result fun a b => a.chunk_id ≤ b.chunk_id :=
    ⟨fun a b => le_total a.chunk_id b.chunk_id⟩
  haveI : IsTrans Result fun a b => a.chunk_id ≤ b.chunk_id :=
    ⟨fun _ _ _ hab hbc => le_trans hab hbc⟩
  haveI : IsAntisymm Result fun a b => a.chunk_id < b.chunk_id :=
    ⟨fun a b hab hba => absurd (hab.trans hba) (lt_irrefl _)⟩
  have hord' : order.Perm (List.range (make_chunk_tasks chunks query).length) := by
    rwa [make_chunk_tasks_length]
  have hperm : (List.insertionSort (fun a b => a.chunk_id ≤ b.chunk_id)
      (collected_results llm timings (make_chunk_tasks chunks query) order)).Perm
      (run_tasks llm timings (make_chunk_tasks chunks query)) :=
    (List.perm_insertionSort _ _).trans
      (collected_results_perm llm timings _ order hord')
  have hsorted := List.sorted_insertionSort (fun a b : Result => a.chunk_id ≤ b.chunk_id)
    (collected_results llm timings (make_chunk_tasks chunks query) order)
  have hrunlt := run_tasks_pairwise llm timings chunks query
  have hnodup : ((run_tasks llm timings (make_chunk_tasks chunks query)).map
      Result.chunk_id).Nodup :=
    (hrunlt.imp fun hab => ne_of_lt hab).map Result.chunk_id
      (fun {a b} h => by simpa using h)
  have hnodup' : ((List.insertionSort (fun a b => a.chunk_id ≤ b.chunk_id)
      (collected_results llm timings (make_chunk_tasks chunks query) order)).map
        Result.chunk_id).Nodup :=
    ((hperm.map Result.chunk_id).nodup_iff).mpr hnodup
  exact List.eq_of_perm_of_sorted hperm
    (pairwise_lt_of_le_of_nodup hsorted hnodup')
    (hrunlt.imp fun hab => hab)

theorem batch_tasks_flatten (n : Nat) (hn : 0 < n) :
    ∀ ts : List ChunkTask, (batch_tasks ts n).flatten = ts := by
  have key : ∀ k ts, ts.length ≤ k → (batch_tasks ts n).flatten = ts := by
    intro k
    induction k with
    | zero =>
      intro ts h
      have : ts = [] := List.eq_nil_of_length_eq_zero (Nat.le_zero.mp h)
      subst this
      simp [batch_tasks]
    | succ k ih =>
      intro ts h
      cases ts with
      | nil => simp [batch_tasks]
      | cons t ts' =>
        have hlen : (ts'.drop (n - 1)).length ≤ k := by
          simp only [List.length_drop]
          simp only [List.length_cons] at h
          omega
        rw [batch_tasks, List.flatten_cons, ih (ts'.drop (n - 1)) hlen]
        rw [List.take_cons hn]
        show t :: (ts'.take (n - 1) ++ ts'.drop (n - 1)) = t :: ts'
        rw [List.take_append_drop]
  exact fun ts => key ts.length ts le_rfl

theorem process_chunks_async_eq_run_tasks (llm : Option LlmFn) (timings : Int → ℚ)
    (chunks : List PyDict) (query : String) (n : Nat) (hn : 0 < n) :
    process_chunks_async llm timings chunks query n
      = run_tasks llm timings (make_chunk_tasks chunks query) := by
  unfold process_chunks_async run_tasks
  rw [← List.map_flatten, batch_tasks_flatten n hn]

/-! Claim theorems. -/

/-- C1: for every finite sequence of chunks and every query, dispatch
(`process_chunks_sync`, and likewise `process_chunks_async`) returns a
sequence of Results whose length equals the number of input chunks and
which is sorted by `chunk_id` in ascending order.  (`order` is the
nondeterministic completion order of the pool; `n` the positive batch
size of the async path.) -/
theorem dispatch_length_and_sorted (llm : Option LlmFn) (timings : Int → ℚ)
    (order : List Nat) (chunks : List PyDict) (query : String) (n : Nat)
    (hord : order.Perm (List.range chunks.length)) (hn : 0 < n) :
    (process_chunks_sync llm timings order chunks query).length = chunks.length ∧
    (process_chunks_sync llm timings order chunks query).Pairwise
      (fun a b => a.chunk_id ≤ b.chunk_id) ∧
    (process_chunks_async llm timings chunks query n).length = chunks.length ∧
    (process_chunks_async llm timings chunks query n).Pairwise
      (fun a b => a.chunk_id ≤ b.chunk_id) := by
  rw [process_chunks_sync_eq_run_tasks llm timings order chunks query hord,
    process_chunks_async_eq_run_tasks llm timings chunks query n hn]
  refine ⟨?_, ?_, ?_, ?_⟩
  · rw [run_tasks, List.length_map, make_chunk_tasks_length]
  · exact (run_tasks_pairwise llm timings chunks query).imp fun hab => le_of_lt hab
  · rw [run_tasks, List.length_map, make_chunk_tasks_length]
  · exact (run_tasks_pairwise llm timings chunks query).imp fun hab => le_of_lt hab

/-- C3: for every dispatched `ChunkTask`, exactly one `Result` is
produced, and its `chunk_id` equals the id of the task it was produced
for; the id match holds in every branch of `_process_single_chunk`,
including the exception (erroring worker) branch. -/
theorem one_result_per_task (llm : Option LlmFn) (timings : Int → ℚ)
    (order : List Nat) (chunks : List PyDict) (query : String)
    (hord : order.Perm (List.range chunks.length)) :
    ((process_chunks_sync llm timings order chunks query).map Result.chunk_id
      = (make_chunk_tasks chunks query).map ChunkTask.id) ∧
    ∀ (llm' : Option LlmFn) (t : ℚ) (task : ChunkTask),
      (process_single_chunk llm' t task).chunk_id = task.id := by
  rw [process_chunks_sync_eq_run_tasks llm timings order chunks query hord,
    run_tasks_ids]
  exact ⟨rfl, process_single_chunk_chunk_id⟩

/-- C4 counterexample: a task of kind `"query"` (exactly what dispatch
builds when a user query is supplied) is assigned the model `"haiku"`,
not `"sonnet"` as the claim states: `_select_model` has no `"query"`
arm and falls through to the `else` branch. -/
theorem query_task_model_not_sonnet :
    select_model { id := 0, content := PyVal.vnone, task_type := "query", query := some "find x" } = "haiku" ∧
    select_model { id := 0, content := PyVal.vnone, task_type := "query", query := some "find x" } ≠ "sonnet" :=
  ⟨rfl, by decide⟩

/-- C4 amended: the model tag is `"haiku"` for kind `"extraction"`,
`"sonnet"` for kinds `"analysis"` and `"synthesis"`, and `"haiku"` for
every other kind — in particular every task built by dispatch (kind
`"query"`) is assigned `"haiku"`. -/
theorem select_model_spec (task : ChunkTask) :
    (task.task_type = "extraction" → select_model task = "haiku") ∧
    (task.task_type = "analysis" ∨ task.task_type = "synthesis" →
      select_model task = "sonnet") ∧
    (task.task_type ≠ "analysis" → task.task_type ≠ "synthesis" →
      select_model task = "haiku") ∧
    ∀ (chunks : List PyDict) (query : String),
      ∀ task' ∈ make_chunk_tasks chunks query, select_model task' = "haiku" := by
  refine ⟨?_, ?_, ?_, ?_⟩
  · intro h
    simp [select_model, h]
  · rintro (h | h) <;> simp [select_model, h]
  · intro h1 h2
    by_cases h : task.task_type = "extraction"
    · simp [select_model, h]
    · simp [select_model, h, h1, h2]
  · intro chunks query task' htask'
    rw [make_chunk_tasks, List.mem_map] at htask'
    obtain ⟨p, -, rfl⟩ := htask'
    rfl

/-- C4 amended, witness: concrete evaluations through the amended
theorem at kind `"analysis"` (→ `"sonnet"`) and at a dispatched task
(→ `"haiku"`). -/
theorem select_model_spec_witness :
    select_model { id := 0, content := PyVal.vnone, task_type := "analysis" } = "sonnet" ∧
    select_model { id := 0, content := PyVal.vstr "x", task_type := "extraction" } = "haiku" ∧
    select_model { id := 0, content := PyVal.vstr "x", task_type := "query", query := some "q", metadata := [("content", PyVal.vstr "x")] } = "haiku" :=
  ⟨(select_model_spec _).2.1 (Or.inl rfl),
   (select_model_spec _).1 rfl,
   (select_model_spec { id := 0, content := PyVal.vstr "x", task_type := "query", query := some "q", metadata := [("content", PyVal.vstr "x")] }).2.2.2
     [[("content", PyVal.vstr "x")]] "q" _ (List.mem_singleton.mpr rfl)⟩

/-- C5: for every `Result` sequence, `aggregate_results` reports
`chunks_processed` = number of error-free Results, `chunks_failed` =
number of errored Results (their sum is the sequence length),
`total_processing_time_ms` = sum of the per-task durations, and one
`(chunk, error)` entry per failed Result, in order. -/
theorem aggregate_counters (results : List Result) :
    (aggregate_results results).chunks_processed
      = (results.filter fun r => r.error.isNone).length ∧
    (aggregate_results results).chunks_failed
      = (results.filter fun r => r.error.isSome).length ∧
    (aggregate_results results).chunks_processed
      + (aggregate_results results).chunks_failed = results.length ∧
    (aggregate_results results).total_processing_time_ms
      = (results.map Result.processing_time_ms).sum ∧
    (aggregate_results results).errors
      = (results.filter fun r => r.error.isSome).map
          fun r => (r.chunk_id, r.error) := by
  refine ⟨rfl, rfl, ?_, rfl, rfl⟩
  show (results.filter fun r => r.error.isNone).length
    + (results.filter fun r => r.error.isSome).length = results.length
  induction results with
  | nil => rfl
  | cons a l ih =>
    cases ha : a.error <;> simp [List.filter_cons, ha] <;> omega

/-- C10: with no LM worker configured (`llm_query_fn = None`), dispatch
returns one error-free `Result` per chunk whose content is the
placeholder string built from the chunk id and the character length of
`str(payload)`; there is no worker to call, so no external call is
made. -/
theorem no_llm_placeholder_results (timings : Int → ℚ) (order : List Nat)
    (chunks : List PyDict) (query : String)
    (hord : order.Perm (List.range chunks.length)) :
    process_chunks_sync Option.none timings order chunks query
      = chunks.enum.map fun p =>
          { chunk_id := (p.1 : Int)
            content := PyVal.vstr ("[Processed chunk " ++ toString ((p.1 : Nat) : Int)
              ++ ": " ++ toString (pyStr (dict_get p.2 "content" (.vdict p.2))).length
              ++ " chars]")
            processing_time_ms := timings (p.1 : Int)
            model_used := "haiku"
            error := Option.none } := by
  rw [process_chunks_sync_eq_run_tasks Option.none timings order chunks query hord]
  unfold run_tasks make_chunk_tasks
  rw [List.map_map]
  exact List.map_congr_left fun p _ => rfl

/-- C6: when every successful content is a string, the aggregated
content is the successful blocks `"[Chunk <id>]:\n<content>"` in
sequence order, joined by the two-character separator `"\n\n"`; failed
Results contribute no block. -/
theorem aggregate_string_concat (results : List Result)
    (h : ∀ r ∈ results, r.error.isNone = true → r.content.isStr = true) :
    (aggregate_results results).aggregated
      = PyVal.vstr (pyJoin "\n\n" ((results.filter fun r => r.error.isNone).map
          fun r => "[Chunk " ++ toString r.chunk_id ++ "]:\n" ++ pyStr r.content)) ∧
    ("\n\n" : String).length = 2 := by
  have hall : ((results.filter fun r => r.error.isNone).all fun r => r.content.isStr)
      = true := by
    rw [List.all_eq_true]
    intro r hr
    rw [List.mem_filter] at hr
    exact h r hr.1 hr.2
  exact ⟨by simp [aggregate_results, hall], rfl⟩

/-- C6 witness: a concrete run with one failed Result sandwiched
between two successful string Results. -/
theorem aggregate_string_concat_witness :
    (aggregate_results
      [{ chunk_id := 0, content := PyVal.vstr "alpha", processing_time_ms := 0 },
       { chunk_id := 1, content := PyVal.vnone, processing_time_ms := 0, error := some "boom" },
       { chunk_id := 2, content := PyVal.vstr "beta", processing_time_ms := 0 }]).aggregated
      = PyVal.vstr "[Chunk 0]:\nalpha\n\n[Chunk 2]:\nbeta" :=
  (aggregate_string_concat
    [{ chunk_id := 0, content := PyVal.vstr "alpha", processing_time_ms := 0 },
     { chunk_id := 1, content := PyVal.vnone, processing_time_ms := 0, error := some "boom" },
     { chunk_id := 2, content := PyVal.vstr "beta", processing_time_ms := 0 }]
    (by decide)).1.trans rfl

/-- C9: the prompt is a fixed preamble (fixed by the task's query and
id) followed by the chunk payload truncated to 10000 characters and a
fixed coda, so its length is bounded independently of the payload
size. -/
theorem build_prompt_bounded (task : ChunkTask) :
    ∃ pre post : String,
      (∀ c : PyVal, build_prompt { task with content := c }
          = pre ++ pySlice (pyStr c) 10000 ++ post) ∧
      ∀ c : PyVal, (build_prompt { task with content := c }).length
          ≤ pre.length + post.length + 10000 := by
  obtain ⟨tid, tcontent, ttype, tquery, tmeta⟩ := task
  have hlen : ∀ (pre post : String) (c : PyVal),
      (pre ++ pySlice (pyStr c) 10000 ++ post).length
        ≤ pre.length + post.length + 10000 := by
    intro pre post c
    rw [String.length_append, String.length_append]
    have : (pySlice (pyStr c) 10000).length ≤ 10000 :=
      List.length_take_le 10000 (pyStr c).data
    omega
  by_cases hq : pyTruthyOpt tquery = true
  · refine ⟨"Process this chunk of data to answer the following query:\n\nQuery: "
        ++ tquery.getD "" ++ "\n\nChunk " ++ toString tid ++ ":\n",
      "\n\nProvide a concise response focusing only on information relevant to the query.",
      fun c => ?_, fun c => ?_⟩
    · show build_prompt { id := tid, content := c, task_type := ttype, query := tquery, metadata := tmeta } = _
      rw [build_prompt, if_pos hq]
    · have := hlen ("Process this chunk of data to answer the following query:\n\nQuery: "
        ++ tquery.getD "" ++ "\n\nChunk " ++ toString tid ++ ":\n")
        "\n\nProvide a concise response focusing only on information relevant to the query." c
      rw [build_prompt, if_pos hq]
      exact this
  · refine ⟨"Extract key information from this chunk:\n\nChunk " ++ toString tid ++ ":\n",
      "\n\nProvide a structured summary of the main points.",
      fun c => ?_, fun c => ?_⟩
    · show build_prompt { id := tid, content := c, task_type := ttype, query := tquery, metadata := tmeta } = _
      rw [build_prompt, if_neg hq]
    · have := hlen ("Extract key information from this chunk:\n\nChunk "
        ++ toString tid ++ ":\n")
        "\n\nProvide a structured summary of the main points." c
      rw [build_prompt, if_neg hq]
      exact this

/-- C2: with any LM worker, including one that raises, dispatch returns
a full Result sequence (nothing is raised to the caller: the embedding
of `_process_single_chunk` is a total function); every errored Result
has empty (`None`) content, and a worker exception with message `e` on
some task is folded into that task's Result as `error = some e`,
`content = None`. -/
theorem dispatch_folds_failures (f : LlmFn) (timings : Int → ℚ) (order : List Nat)
    (chunks : List PyDict) (query : String)
    (hord : order.Perm (List.range chunks.length)) :
    (process_chunks_sync (some f) timings order chunks query).length = chunks.length ∧
    (∀ r ∈ process_chunks_sync (some f) timings order chunks query,
      r.error.isSome = true → r.content = PyVal.vnone) ∧
    ∀ task ∈ make_chunk_tasks chunks query, ∀ e,
      f (build_prompt task) (select_model task) = Except.error e →
        ({ chunk_id := task.id, content := PyVal.vnone, processing_time_ms := timings task.id, error := some e } : Result)
          ∈ process_chunks_sync (some f) timings order chunks query := by
  rw [process_chunks_sync_eq_run_tasks (some f) timings order chunks query hord]
  refine ⟨?_, ?_, ?_⟩
  · rw [run_tasks, List.length_map, make_chunk_tasks_length]
  · intro r hr herr
    rw [run_tasks, List.mem_map] at hr
    obtain ⟨task, -, rfl⟩ := hr
    revert herr
    show (process_single_chunk (some f) (timings task.id) task).error.isSome = true →
      (process_single_chunk (some f) (timings task.id) task).content = PyVal.vnone
    rw [process_single_chunk]
    cases f (build_prompt task) (select_model task) with
    | ok v => intro hcontra; simp at hcontra
    | error e => intro _; rfl
  · intro task htask e herr
    rw [run_tasks, List.mem_map]
    refine ⟨task, htask, ?_⟩
    rw [process_single_chunk, herr]

/-- C2 witness: a worker that always raises; the Result for chunk 0 is
present with the folded error. -/
theorem dispatch_folds_failures_witness :
    ({ chunk_id := 0, content := PyVal.vnone, processing_time_ms := 0, error := some "boom" } : Result)
      ∈ process_chunks_sync (some fun _ _ => Except.error "boom") (fun _ => 0) [0]
          [[("content", PyVal.vstr "x")]] "q" :=
  (dispatch_folds_failures (fun _ _ => Except.error "boom") (fun _ => 0) [0]
    [[("content", PyVal.vstr "x")]] "q" (by decide)).2.2
    { id := 0, content := PyVal.vstr "x", task_type := "query", query := some "q", metadata := [("content", PyVal.vstr "x")] }
    (List.mem_singleton.mpr rfl) "boom" rfl

/-- C1 witness: two chunks dispatched with completion order `[1, 0]`
and async batch size 1. -/
theorem dispatch_length_and_sorted_witness :
    ([1, 0] : List Nat).Perm (List.range 2) ∧
    ((process_chunks_sync Option.none (fun _ => 0) [1, 0]
        [[("content", PyVal.vstr "ab")], []] "q").length = 2 ∧
      (process_chunks_sync Option.none (fun _ => 0) [1, 0]
        [[("content", PyVal.vstr "ab")], []] "q").Pairwise
        (fun a b => a.chunk_id ≤ b.chunk_id) ∧
      (process_chunks_async Option.none (fun _ => 0)
        [[("content", PyVal.vstr "ab")], []] "q" 1).length = 2 ∧
      (process_chunks_async Option.none (fun _ => 0)
        [[("content", PyVal.vstr "ab")], []] "q" 1).Pairwise
        (fun a b => a.chunk_id ≤ b.chunk_id)) :=
  ⟨by decide,
   dispatch_length_and_sorted Option.none (fun _ => 0) [1, 0]
     [[("content", PyVal.vstr "ab")], []] "q" 1 (by decide) (by decide)⟩

/-- C3 witness: one chunk, completion order `[0]`. -/
theorem one_result_per_task_witness :
    ((process_chunks_sync Option.none (fun _ => 0) [0]
        [[("content", PyVal.vstr "hi")]] "q").map Result.chunk_id
      = (make_chunk_tasks [[("content", PyVal.vstr "hi")]] "q").map ChunkTask.id) ∧
    ∀ (llm' : Option LlmFn) (t : ℚ) (task : ChunkTask),
      (process_single_chunk llm' t task).chunk_id = task.id :=
  one_result_per_task Option.none (fun _ => 0) [0]
    [[("content", PyVal.vstr "hi")]] "q" (by decide)

/-- C10 witness: without an LM worker, the two Results carry the
deterministic placeholder strings. -/
theorem no_llm_placeholder_results_witness :
    process_chunks_sync Option.none (fun _ => 3) [1, 0]
        [[("content", PyVal.vstr "abc")], [("k", PyVal.vint 5)]] "q"
      = [{ chunk_id := 0, content := PyVal.vstr "[Processed chunk 0: 3 chars]", processing_time_ms := 3, model_used := "haiku", error := Option.none },
         { chunk_id := 1, content := PyVal.vstr "[Processed chunk 1: 8 chars]", processing_time_ms := 3, model_used := "haiku", error := Option.none }] :=
  (no_llm_placeholder_results (fun _ => 3) [1, 0]
    [[("content", PyVal.vstr "abc")], [("k", PyVal.vint 5)]] "q" (by decide)).trans rfl

theorem erase_time_process_single_chunk (llm : Option LlmFn) (t t' : ℚ)
    (task : ChunkTask) :
    erase_time (process_single_chunk llm t task)
      = erase_time (process_single_chunk llm t' task) := by
  cases llm with
  | none => rfl
  | some f =>
    cases h : f (build_prompt task) (select_model task) <;>
      simp [process_single_chunk, h, erase_time]

theorem agg_view_spec (results : List Result) :
    agg_view (results.map erase_time)
      = ((aggregate_results results).aggregated,
         (aggregate_results results).chunks_processed,
         (aggregate_results results).chunks_failed,
         (aggregate_results results).errors) := by
  unfold agg_view aggregate_results
  simp only [List.filter_map, List.all_map, List.map_map, List.foldl_map,
    List.length_map, Function.comp]
  rfl

/-- C8: two dispatch+aggregate runs on identical chunks and query with
the same worker agree — excluding the timing fields — whatever the
completion orders and measured durations are. -/
theorem dispatch_deterministic (llm : Option LlmFn) (t₁ t₂ : Int → ℚ)
    (o₁ o₂ : List Nat) (chunks : List PyDict) (query : String)
    (h₁ : o₁.Perm (List.range chunks.length))
    (h₂ : o₂.Perm (List.range chunks.length)) :
    ((process_chunks_sync llm t₁ o₁ chunks query).map erase_time
      = (process_chunks_sync llm t₂ o₂ chunks query).map erase_time) ∧
    (aggregate_results (process_chunks_sync llm t₁ o₁ chunks query)).aggregated
      = (aggregate_results (process_chunks_sync llm t₂ o₂ chunks query)).aggregated ∧
    (aggregate_results (process_chunks_sync llm t₁ o₁ chunks query)).chunks_processed
      = (aggregate_results (process_chunks_sync llm t₂ o₂ chunks query)).chunks_processed ∧
    (aggregate_results (process_chunks_sync llm t₁ o₁ chunks query)).chunks_failed
      = (aggregate_results (process_chunks_sync llm t₂ o₂ chunks query)).chunks_failed ∧
    (aggregate_results (process_chunks_sync llm t₁ o₁ chunks query)).errors
      = (aggregate_results (process_chunks_sync llm t₂ o₂ chunks query)).errors := by
  have key : ∀ (t : Int → ℚ) (o : List Nat), o.Perm (List.range chunks.length) →
      (process_chunks_sync llm t o chunks query).map erase_time
        = (make_chunk_tasks chunks query).map
            fun task => erase_time (process_single_chunk llm 0 task) := by
    intro t o h
    rw [process_chunks_sync_eq_run_tasks llm t o chunks query h, run_tasks, List.map_map]
    exact List.map_congr_left fun task _ =>
      erase_time_process_single_chunk llm (t task.id) 0 task
  have hmap := (key t₁ o₁ h₁).trans (key t₂ o₂ h₂).symm
  have v₁ := agg_view_spec (process_chunks_sync llm t₁ o₁ chunks query)
  have v₂ := agg_view_spec (process_chunks_sync llm t₂ o₂ chunks query)
  rw [hmap] at v₁
  have hv := v₁.symm.trans v₂
  rw [Prod.mk.injEq, Prod.mk.injEq, Prod.mk.injEq] at hv
  exact ⟨hmap, hv.1, hv.2.1, hv.2.2.1, hv.2.2.2⟩

/-- C8 witness: two runs over the same two chunks with different
completion orders and different measured durations yield the same
timing-erased Results. -/
theorem dispatch_deterministic_witness :
    (process_chunks_sync Option.none (fun _ => 1) [1, 0]
        [[("content", PyVal.vstr "ab")], []] "q").map erase_time
      = (process_chunks_sync Option.none (fun _ => 2) [0, 1]
        [[("content", PyVal.vstr "ab")], []] "q").map erase_time :=
  (dispatch_deterministic Option.none (fun _ => 1) (fun _ => 2) [1, 0] [0, 1]
    [[("content", PyVal.vstr "ab")], []] "q" (by decide) (by decide)).1

/-- C7: the token estimate is `int(words × 1.3 × 1.1 × c)` with `c = 1.4`
iff at least three of the thirteen distinct fixed code markers occur in
the blob and `c = 1.0` otherwise; the estimate is non-negative; and on a
file whose read raises, the estimate falls back to the byte size divided
by 4. -/
theorem token_estimate_spec (content : String) (f : PyFile) :
    estimate_tokens_content content
      = Rat.floor ((((pySplitWs content).length : ℚ)) * (13 / 10) * (11 / 10) *
          (if 3 ≤ (code_indicators.countP fun ind => sub_chars ind.data content.data)
            then 14 / 10 else 1)) ∧
    code_indicators.Nodup ∧
    code_indicators.length = 13 ∧
    0 ≤ estimate_tokens_content content ∧
    (f.readContent = Option.none →
      estimate_tokens_file f = ((f.byteSize / 4 : Nat) : Int)) ∧
    ∀ c, f.readContent = some c →
      estimate_tokens_file f = estimate_tokens_content c := by
  refine ⟨?_, by decide, by decide, ?_, ?_, ?_⟩
  · simp [estimate_tokens_content, looks_like_code, decide_eq_true_eq]
  · unfold estimate_tokens_content
    rw [Rat.le_floor]
    by_cases hc : looks_like_code content = true
    · simp only [hc, if_true]
      push_cast
      positivity
    · simp only [Bool.not_eq_true] at hc
      simp only [hc, Bool.false_eq_true, if_false]
      push_cast
      positivity
  · intro h
    simp [estimate_tokens_file, h]
  · intro c h
    simp [estimate_tokens_file, h]

/-- C7 witness: a file whose read raises falls back to `22 // 4 = 5`;
a readable file is estimated from its content. -/
theorem token_estimate_spec_witness :
    estimate_tokens_file { readContent := Option.none, byteSize := 22 } = 5 ∧
    estimate_tokens_file { readContent := some "one two", byteSize := 0 }
      = estimate_tokens_content "one two" :=
  ⟨((token_estimate_spec "" { readContent := Option.none, byteSize := 22 }).2.2.2.2.1
      rfl).trans rfl,
   (token_estimate_spec "" { readContent := some "one two", byteSize := 0 }).2.2.2.2.2
     "one two" rfl⟩

end RLM
